import Mathlib

/-!
Verification of the TISTOOL form-intake application.

The development shallowly embeds:
* the client-side field validators and form-validity derivation
  (`TISValidationTool` React component);
* the client draft persistence (JSON serialize/parse round trip through
  local storage);
* the client submission wrapper with its retry-on-network-error loop
  (`apiService.submitForm`);
* the server `Create` / `List` / `Get by id` / `Delete by id` handlers,
  the input sanitization middleware (`validator.escape` after `trim`),
  and the Mongoose schema constraints.

Strings are modelled as Lean `String` (a list of Unicode scalar values);
lengths are code-point counts, which agrees with JavaScript UTF-16 lengths
on all inputs considered here.  Timestamps are modelled as `Nat`.
-/

/-! ### Character classes used by the regular expressions of the code -/

/-- ASCII uppercase letter, the class `[A-Z]`. -/
def isAsciiUpper (c : Char) : Bool := 65 ≤ c.toNat && c.toNat ≤ 90

/-- ASCII lowercase letter, the class `[a-z]`. -/
def isAsciiLower (c : Char) : Bool := 97 ≤ c.toNat && c.toNat ≤ 122

/-- ASCII letter, the class `[a-zA-Z]`. -/
def isAsciiLetter (c : Char) : Bool := isAsciiUpper c || isAsciiLower c

/-- ASCII digit, the class `[0-9]`. -/
def isAsciiDigit (c : Char) : Bool := 48 ≤ c.toNat && c.toNat ≤ 57

/-- The JavaScript whitespace class `\s` (also the set stripped by
`String.prototype.trim`): tab, LF, VT, FF, CR, space, NBSP, Ogham space,
the U+2000 to U+200A range, line and paragraph separators, narrow NBSP,
mathematical space, ideographic space, and the BOM. -/
def isJsWhitespace (c : Char) : Bool :=
  let n := c.toNat
  n = 9 || n = 10 || n = 11 || n = 12 || n = 13 || n = 32 || n = 160 ||
  n = 5760 || (8192 ≤ n && n ≤ 8202) || n = 8232 || n = 8233 ||
  n = 8239 || n = 8287 || n = 12288 || n = 65279

/-! ### The four regular expressions of the code -/

/-- The test `/^[a-zA-Z\s]+$/` used for the `name` field (client validator
and server schema alike). -/
def matchNameRegex (s : String) : Bool :=
  !s.data.isEmpty && s.data.all (fun c => isAsciiLetter c || isJsWhitespace c)

/-- The test `/^[A-Z]{2,4}-[0-9]{2,4}$/` used by the client `productLine`
validator.  Because the dash separates two disjoint character classes the
regular expression is equivalent to this deterministic decomposition. -/
def matchProductLineRegex (s : String) : Bool :=
  let up := s.data.takeWhile isAsciiUpper
  let rest := s.data.dropWhile isAsciiUpper
  decide (2 ≤ up.length) && decide (up.length ≤ 4) &&
  (match rest with
   | c :: ds =>
     c = Char.ofNat 45 && decide (2 ≤ ds.length) && decide (ds.length ≤ 4) &&
     ds.all isAsciiDigit
   | [] => false)

/-- The test `/^ER[0-9]{6}$/` used for the `erCode` field. -/
def matchERCodeRegex (s : String) : Bool :=
  match s.data with
  | c1 :: c2 :: ds =>
    c1 = Char.ofNat 69 && c2 = Char.ofNat 82 &&
    decide (ds.length = 6) && ds.all isAsciiDigit
  | _ => false

/-- The test `/^[A-Z]{2}[0-9]{4}[A-Z]?$/` used for the `modelNumber`
field.  As for the product line, the classes are disjoint so the greedy
decomposition is equivalent to the regular expression. -/
def matchModelNumberRegex (s : String) : Bool :=
  match s.data with
  | a :: b :: rest =>
    isAsciiUpper a && isAsciiUpper b &&
    (let ds := rest.takeWhile isAsciiDigit
     let tl := rest.dropWhile isAsciiDigit
     decide (ds.length = 4) &&
     (match tl with
      | [] => true
      | [c] => isAsciiUpper c
      | _ => false))
  | _ => false

/-! ### Client-side field validators (component `TISValidationTool`) -/

/-- The transient per-field validation result `{isValid, message}`. -/
structure IValidationResult where
  isValid : Bool
  message : String
deriving Repr, DecidableEq

/-- The five form fields held in client state (`IFormData`). -/
structure IFormData where
  name : String
  productLine : String
  erCode : String
  description : String
  modelNumber : String
deriving Repr, DecidableEq

/-- Client validator for `name`: required, at least 2 characters,
letters and whitespace only. -/
def validateName (value : String) : IValidationResult :=
  if value = "" then { isValid := false, message := "Name is required" }
  else if value.length < 2 then
    { isValid := false, message := "Name must be at least 2 characters" }
  else if !matchNameRegex value then
    { isValid := false, message := "Name can only contain letters and spaces" }
  else { isValid := true, message := "Valid name format" }

/-- Client validator for `productLine`: required, at least 3 characters,
matching `^[A-Z]{2,4}-[0-9]{2,4}$`. -/
def validateProductLine (value : String) : IValidationResult :=
  if value = "" then { isValid := false, message := "Product Line is required" }
  else if value.length < 3 then
    { isValid := false, message := "Product Line must be at least 3 characters" }
  else if !matchProductLineRegex value then
    { isValid := false, message := "Format: XX-99 (2-4 letters, dash, 2-4 numbers)" }
  else { isValid := true, message := "Valid product line format" }

/-- Client validator for `erCode`: required, `ER` followed by 6 digits. -/
def validateERCode (value : String) : IValidationResult :=
  if value = "" then { isValid := false, message := "ER Code is required" }
  else if !matchERCodeRegex value then
    { isValid := false, message := "Format: ER followed by 6 digits (e.g., ER123456)" }
  else { isValid := true, message := "Valid ER code format" }

/-- Client validator for `description`: required, length between 10
and 500. -/
def validateDescription (value : String) : IValidationResult :=
  if value = "" then { isValid := false, message := "Description is required" }
  else if value.length < 10 then
    { isValid := false, message := "Description must be at least 10 characters" }
  else if value.length > 500 then
    { isValid := false, message := "Description must be less than 500 characters" }
  else { isValid := true, message := "Valid description length" }

/-- Client validator for `modelNumber`: required, 2 letters, 4 digits,
optional trailing letter. -/
def validateModelNumber (value : String) : IValidationResult :=
  if value = "" then { isValid := false, message := "Model Number is required" }
  else if !matchModelNumberRegex value then
    { isValid := false,
      message := "Format: 2 letters + 4 digits + optional letter (e.g., AB1234C)" }
  else { isValid := true, message := "Valid model number format" }

/-- `Object.values(validations)` in field-declaration order. -/
def formValidations (d : IFormData) : List IValidationResult :=
  [validateName d.name, validateProductLine d.productLine,
   validateERCode d.erCode, validateDescription d.description,
   validateModelNumber d.modelNumber]

/-- `Object.values(formData)` in field-declaration order. -/
def formValues (d : IFormData) : List String :=
  [d.name, d.productLine, d.erCode, d.description, d.modelNumber]

/-- JavaScript `String.prototype.trim`: strip the `\s` class from both
ends. -/
def jsTrim (s : String) : String :=
  String.mk (((s.data.dropWhile isJsWhitespace).reverse.dropWhile
      isJsWhitespace).reverse)

/-- The derived overall form validity: every validator reports valid and
every field is non-blank after trimming (the `useEffect` recomputation). -/
def isFormValid (d : IFormData) : Bool :=
  (formValidations d).all (fun v => v.isValid) &&
  (formValues d).all (fun v => jsTrim v != "")

/-- What `handleSubmit` does after `preventDefault`: it either issues the
network call with the current form data or does nothing. -/
inductive SubmitAction where
  | networkCall (payload : IFormData)
  | noCall
deriving Repr, DecidableEq

/-- `handleSubmit`: the network call happens only under `if (isFormValid)`. -/
def handleSubmit (d : IFormData) : SubmitAction :=
  if isFormValid d then SubmitAction.networkCall d else SubmitAction.noCall

/-- The initial (all-empty) form state. -/
def emptyForm : IFormData :=
  { name := "", productLine := "", erCode := "", description := "",
    modelNumber := "" }

/-! ### Server input sanitization (`sanitizeInput` middleware)

`validator.escape` chains global replacements of `&`, `"`, the apostrophe,
`<`, `>`, `/`, the backslash and the backtick by HTML entities, ampersand
first; since no later replacement output contains a character of a later
class, the chain equals this single character-wise map. -/

/-- The per-character HTML-entity escape performed by `validator.escape`. -/
def escapeHtmlChar (c : Char) : List Char :=
  if c = Char.ofNat 38 then "&amp;".data
  else if c = Char.ofNat 34 then "&quot;".data
  else if c = Char.ofNat 39 then "&#x27;".data
  else if c = Char.ofNat 60 then "&lt;".data
  else if c = Char.ofNat 62 then "&gt;".data
  else if c = Char.ofNat 47 then "&#x2F;".data
  else if c = Char.ofNat 92 then "&#x5C;".data
  else if c = Char.ofNat 96 then "&#96;".data
  else [c]

/-- `validator.escape` on a whole string. -/
def validatorEscape (s : String) : String :=
  String.mk (s.data.map escapeHtmlChar).flatten

/-- The middleware transformation of one string body field:
`validator.escape(value.trim())`. -/
def sanitizeField (s : String) : String := validatorEscape (jsTrim s)

/-! ### Mongoose schema (`formSubmissionSchema`) -/

/-- The 38 admissible `productLine` enum values of the server schema. -/
def productLineEnumValues : List String :=
  ["12", "13", "15", "24", "25", "45", "80", "1A", "1B", "1H", "3E", "4W",
   "8F", "AE", "AV", "BL", "CM", "CN", "DI", "DT", "EG", "GM", "GM(EIP)",
   "LB", "MMA", "NA", "NS", "NT", "QB", "QW", "QX", "SP", "TG", "TJ",
   "WN Kobe", "WN PMPS", "WN Soco", "WN TAO"]

/-- Schema checks for `name`: required, minlength 2, maxlength 100, the
letters-and-spaces pattern.  Returns the first violated constraint's
message, if any. -/
def checkName (v : String) : Option String :=
  if v = "" then some "Name is required"
  else if v.length < 2 then some "Name must be at least 2 characters"
  else if v.length > 100 then some "Name must be less than 100 characters"
  else if !matchNameRegex v then some "Name can only contain letters and spaces"
  else none

/-- Schema checks for `productLine`: required, membership in the enum. -/
def checkProductLine (v : String) : Option String :=
  if v = "" then some "Product Line is required"
  else if !(productLineEnumValues.contains v) then
    some "Please select a valid product line"
  else none

/-- Schema checks for `erCode`: required, the `ER` + 6 digits pattern. -/
def checkERCode (v : String) : Option String :=
  if v = "" then some "ER Code is required"
  else if !matchERCodeRegex v then
    some "ER Code format must be ER followed by 6 digits"
  else none

/-- Schema checks for `description`: required, minlength 10,
maxlength 500. -/
def checkDescription (v : String) : Option String :=
  if v = "" then some "Description is required"
  else if v.length < 10 then some "Description must be at least 10 characters"
  else if v.length > 500 then some "Description must be less than 500 characters"
  else none

/-- Schema checks for `modelNumber`: required, the 2 letters + 4 digits +
optional letter pattern. -/
def checkModelNumber (v : String) : Option String :=
  if v = "" then some "Model Number is required"
  else if !matchModelNumberRegex v then
    some "Model Number format must be 2 letters + 4 digits + optional letter"
  else none

/-! ### Server data model and the `Create` handler -/

/-- A request body for `POST /api/submissions` as the client sends it:
five string fields plus the client-attached `submittedAt` timestamp
(serialized to a string on the wire by axios). -/
structure RawBody where
  name : String
  productLine : String
  erCode : String
  description : String
  modelNumber : String
  submittedAt : Option String
deriving Repr, DecidableEq

/-- The `sanitizeInput` middleware applied to every string field of the
body. -/
def sanitizeBody (b : RawBody) : RawBody :=
  { name := sanitizeField b.name,
    productLine := sanitizeField b.productLine,
    erCode := sanitizeField b.erCode,
    description := sanitizeField b.description,
    modelNumber := sanitizeField b.modelNumber,
    submittedAt := b.submittedAt.map sanitizeField }

/-- The messages of all violated schema paths, in schema declaration
order (`Object.values(error.errors).map(e => e.message)`). -/
def validationErrors (b : RawBody) : List String :=
  [checkName b.name, checkProductLine b.productLine, checkERCode b.erCode,
   checkDescription b.description, checkModelNumber b.modelNumber].filterMap id

/-- A persisted `FormSubmission` document. -/
structure Submission where
  id : String
  name : String
  productLine : String
  erCode : String
  description : String
  modelNumber : String
  submittedAt : Nat
deriving Repr, DecidableEq

/-- The outcome of the `Create` handler: the 400 `All fields are required`
early return, the 400 `Validation failed` response listing every violated
field's message, or the 201 response carrying the persisted record. -/
inductive CreateResult where
  | missingFields
  | validationFailed (errs : List String)
  | created (record : Submission)
deriving Repr, DecidableEq

/-- `POST /api/submissions`: sanitize the body, check field presence,
then build the document with a server-assigned id and `submittedAt`
(overriding anything the client sent via the spread) and save it, which
runs the schema validators; a validation failure leaves the store
unchanged. -/
def createSubmission (body : RawBody) (newId : String) (now : Nat)
    (store : List Submission) : CreateResult × List Submission :=
  let b := sanitizeBody body
  if b.name = "" || b.productLine = "" || b.erCode = "" ||
     b.description = "" || b.modelNumber = "" then
    (CreateResult.missingFields, store)
  else
    let errs := validationErrors b
    if errs.isEmpty then
      let r : Submission :=
        { id := newId, name := b.name, productLine := b.productLine,
          erCode := b.erCode, description := b.description,
          modelNumber := b.modelNumber, submittedAt := now }
      (CreateResult.created r, store ++ [r])
    else (CreateResult.validationFailed errs, store)

/-- The body built by `apiService.submitForm`: the form data spread plus
a client-side `submittedAt` timestamp. -/
def submitFormBody (d : IFormData) (clientNow : String) : RawBody :=
  { name := d.name, productLine := d.productLine, erCode := d.erCode,
    description := d.description, modelNumber := d.modelNumber,
    submittedAt := some clientNow }

/-! ### The `List` handler -/

/-- Pagination metadata of the list response. -/
structure Pagination where
  current : Nat
  total : Nat
  hasMore : Bool
deriving Repr, DecidableEq

/-- Sort key of `.sort({ submittedAt: -1 })`: newest first. -/
def byNewest (a b : Submission) : Prop := b.submittedAt ≤ a.submittedAt

instance : DecidableRel byNewest := fun a b =>
  inferInstanceAs (Decidable (b.submittedAt ≤ a.submittedAt))

instance : IsTotal Submission byNewest :=
  ⟨fun a b => Nat.le_total b.submittedAt a.submittedAt⟩

instance : IsTrans Submission byNewest :=
  ⟨fun _ _ _ h1 h2 => Nat.le_trans h2 h1⟩

/-- `parseInt(q) || dflt`: an absent parameter, and a parameter whose
parse is `0` (falsy), both fall back to the default. -/
def pageParam (q : Option Nat) (dflt : Nat) : Nat :=
  match q with
  | some n => if n = 0 then dflt else n
  | none => dflt

/-- `GET /api/submissions`: page and limit default to 1 and 10, records
are sorted by `submittedAt` descending, then `skip`/`limit` are applied;
the metadata carries the current page, `Math.ceil(total / limit)` and
`skip + submissions.length < total`. -/
def listSubmissions (store : List Submission) (pageQ limitQ : Option Nat) :
    List Submission × Pagination :=
  let page := pageParam pageQ 1
  let limit := pageParam limitQ 10
  let skip := (page - 1) * limit
  let sorted := store.insertionSort byNewest
  let data := (sorted.drop skip).take limit
  let total := store.length
  (data,
   { current := page, total := (total + limit - 1) / limit,
     hasMore := decide (skip + data.length < total) })

/-! ### The `Get by id` and `Delete by id` handlers -/

/-- ASCII hexadecimal digit. -/
def isHexDigitChar (c : Char) : Bool :=
  isAsciiDigit c || (97 ≤ c.toNat && c.toNat ≤ 102) ||
  (65 ≤ c.toNat && c.toNat ≤ 70)

/-- `mongoose.Types.ObjectId.isValid` on a string: 24 hexadecimal
characters, or any 12-character string (interpreted as 12 raw bytes). -/
def isValidObjectId (s : String) : Bool :=
  (decide (s.length = 24) && s.data.all isHexDigitChar) ||
  decide (s.length = 12)

/-- Outcome of an id-addressed handler: the 400 bad-id response, the 404
not-found response, or the 200 success payload. -/
inductive IdResult (α : Type) where
  | badId (message : String)
  | notFound (message : String)
  | ok (value : α)
deriving Repr, DecidableEq

/-- `GET /api/submissions/:id`: reject malformed ids before querying the
store, report not-found for absent records, else return the record. -/
def getSubmissionById (id : String) (store : List Submission) :
    IdResult Submission :=
  if !isValidObjectId id then IdResult.badId "Invalid submission ID"
  else
    match store.find? (fun r => r.id == id) with
    | none => IdResult.notFound "Submission not found"
    | some r => IdResult.ok r

/-- `DELETE /api/submissions/:id`: same id guard and not-found shape;
on success `findByIdAndDelete` removes the record and the handler
confirms. -/
def deleteSubmissionById (id : String) (store : List Submission) :
    IdResult String × List Submission :=
  if !isValidObjectId id then
    (IdResult.badId "Invalid submission ID", store)
  else
    match store.find? (fun r => r.id == id) with
    | none => (IdResult.notFound "Submission not found", store)
    | some _ =>
      (IdResult.ok "Submission deleted successfully",
       store.eraseP (fun r => r.id == id))

/-! ### Client submission wrapper (`apiService.submitForm`) -/

/-- What one attempt of the underlying POST can produce: a 2xx response
carrying the saved record, or an axios error with its `code`, its
optional `response.data.message` body field and its own `message`. -/
inductive AttemptOutcome where
  | success (record : Submission)
  | failure (code : String) (bodyMessage : Option String) (errMessage : String)
deriving Repr, DecidableEq

/-- The structured `{success, message, data}` result returned to the
caller. -/
structure SubmitResult where
  success : Bool
  message : String
  data : Option Submission
deriving Repr, DecidableEq

/-- The fixed fallback error message of `submitForm`. -/
def genericSubmitError : String := "Failed to submit form. Please try again later."

/-- The only retry-eligible error code. -/
def networkErrorCode : String := "NETWORK_ERROR"

/-- The error-message selection of the catch block: the server body's
`message` when truthy, else the error's own `message` when truthy, else
the generic fallback. -/
def errorMessageOf (bodyMessage : Option String) (errMessage : String) : String :=
  match bodyMessage with
  | some m =>
    if m != "" then m
    else if errMessage != "" then errMessage else genericSubmitError
  | none => if errMessage != "" then errMessage else genericSubmitError

/-- `apiService.submitForm` driven by a `world` giving the outcome of
each attempt (attempt `attempt`, `attempt + 1`, ...).  Returns the result
together with the number of attempts made and the number of 1-second
delays slept.  A failure is retried exactly when retries remain and the
error code is `NETWORK_ERROR`. -/
def submitForm (world : Nat → AttemptOutcome) (attempt retries : Nat) :
    SubmitResult × Nat × Nat :=
  match world attempt with
  | AttemptOutcome.success r =>
    ({ success := true, message := "Form submitted successfully",
       data := some r }, 1, 0)
  | AttemptOutcome.failure code bodyMsg errMsg =>
    match retries with
    | Nat.succ retries2 =>
      if code == networkErrorCode then
        let rec2 := submitForm world (attempt + 1) retries2
        (rec2.1, rec2.2.1 + 1, rec2.2.2 + 1)
      else
        ({ success := false, message := errorMessageOf bodyMsg errMsg,
           data := none }, 1, 0)
    | 0 =>
      ({ success := false, message := errorMessageOf bodyMsg errMsg,
         data := none }, 1, 0)

/-- The default retry budget of `submitForm`. -/
def defaultRetries : Nat := 3

/-! ### Draft persistence: JSON serialization (`JSON.stringify`) -/

/-- One hexadecimal digit as emitted by `JSON.stringify` (lowercase). -/
def hexDigitChar (n : Nat) : Char :=
  if n < 10 then Char.ofNat (48 + n) else Char.ofNat (87 + n)

/-- The value of a hexadecimal digit accepted by `JSON.parse`. -/
def hexDigitVal (c : Char) : Option Nat :=
  if 48 ≤ c.toNat && c.toNat ≤ 57 then some (c.toNat - 48)
  else if 97 ≤ c.toNat && c.toNat ≤ 102 then some (c.toNat - 87)
  else if 65 ≤ c.toNat && c.toNat ≤ 70 then some (c.toNat - 55)
  else none

/-- `JSON.stringify` escaping of one character inside a string literal:
quote and backslash get two-character escapes, the named control
characters get `\b \t \n \f \r`, other control characters get `\u00xx`,
everything else is emitted verbatim. -/
def escapeJsonChar (c : Char) : List Char :=
  if c = Char.ofNat 34 then [Char.ofNat 92, Char.ofNat 34]
  else if c = Char.ofNat 92 then [Char.ofNat 92, Char.ofNat 92]
  else if c = Char.ofNat 8 then [Char.ofNat 92, Char.ofNat 98]
  else if c = Char.ofNat 9 then [Char.ofNat 92, Char.ofNat 116]
  else if c = Char.ofNat 10 then [Char.ofNat 92, Char.ofNat 110]
  else if c = Char.ofNat 12 then [Char.ofNat 92, Char.ofNat 102]
  else if c = Char.ofNat 13 then [Char.ofNat 92, Char.ofNat 114]
  else if c.toNat < 32 then
    [Char.ofNat 92, Char.ofNat 117, Char.ofNat 48, Char.ofNat 48,
     hexDigitChar (c.toNat / 16), hexDigitChar (c.toNat % 16)]
  else [c]

/-- `JSON.stringify` escaping of a whole string body. -/
def escapeJsonList (cs : List Char) : List Char :=
  (cs.map escapeJsonChar).flatten

/-- A complete JSON string literal: quote, escaped body, quote. -/
def quoteJson (s : String) : List Char :=
  Char.ofNat 34 :: (escapeJsonList s.data ++ [Char.ofNat 34])

/-- `JSON.parse` unescaping of the single-character escapes. -/
def unescapeJsonChar (c : Char) : Option Char :=
  if c = Char.ofNat 34 then some (Char.ofNat 34)
  else if c = Char.ofNat 92 then some (Char.ofNat 92)
  else if c = Char.ofNat 47 then some (Char.ofNat 47)
  else if c = Char.ofNat 98 then some (Char.ofNat 8)
  else if c = Char.ofNat 116 then some (Char.ofNat 9)
  else if c = Char.ofNat 110 then some (Char.ofNat 10)
  else if c = Char.ofNat 102 then some (Char.ofNat 12)
  else if c = Char.ofNat 114 then some (Char.ofNat 13)
  else none

/-- `JSON.parse` consuming the body of a string literal after the opening
quote: accumulates decoded characters until the closing quote, handles
backslash escapes including `\uXXXX`, and rejects raw control characters
and malformed input. -/
def parseJsonStringBody (acc : List Char) : List Char → Option (List Char × List Char)
  | [] => none
  | c :: rest =>
    if c = Char.ofNat 34 then some (acc.reverse, rest)
    else if c = Char.ofNat 92 then
      match rest with
      | [] => none
      | e :: rest2 =>
        if e = Char.ofNat 117 then
          match rest2 with
          | h1 :: h2 :: h3 :: h4 :: rest3 =>
            match hexDigitVal h1, hexDigitVal h2, hexDigitVal h3, hexDigitVal h4 with
            | some a, some b, some c2, some d =>
              parseJsonStringBody
                (Char.ofNat (a * 4096 + b * 256 + c2 * 16 + d) :: acc) rest3
            | _, _, _, _ => none
          | _ => none
        else
          match unescapeJsonChar e with
          | some u => parseJsonStringBody (u :: acc) rest2
          | none => none
    else if c.toNat < 32 then none
    else parseJsonStringBody (c :: acc) rest

/-- Consume one complete JSON string literal. -/
def parseStringToken (cs : List Char) : Option (List Char × List Char) :=
  match cs with
  | c :: rest => if c = Char.ofNat 34 then parseJsonStringBody [] rest else none
  | [] => none

/-- Consume one exact character. -/
def expectChar (p : Char) (cs : List Char) : Option (List Char) :=
  match cs with
  | c :: rest => if c = p then some rest else none
  | [] => none

/-- Consume one `"key":"value"` pair. -/
def parsePair (cs : List Char) : Option (List Char × List Char × List Char) := do
  let (k, r1) ← parseStringToken cs
  let r2 ← expectChar (Char.ofNat 58) r1
  let (v, r3) ← parseStringToken r2
  some (k, v, r3)

/-- `JSON.stringify(formData)`: the five fields in declaration order,
each value a JSON string literal, wrapped in braces. -/
def serializeDraft (d : IFormData) : String :=
  String.mk
    (Char.ofNat 123 ::
      (quoteJson "name" ++ (Char.ofNat 58 :: (quoteJson d.name ++
       (Char.ofNat 44 ::
       (quoteJson "productLine" ++ (Char.ofNat 58 :: (quoteJson d.productLine ++
       (Char.ofNat 44 ::
       (quoteJson "erCode" ++ (Char.ofNat 58 :: (quoteJson d.erCode ++
       (Char.ofNat 44 ::
       (quoteJson "description" ++ (Char.ofNat 58 :: (quoteJson d.description ++
       (Char.ofNat 44 ::
       (quoteJson "modelNumber" ++ (Char.ofNat 58 :: (quoteJson d.modelNumber ++
       [Char.ofNat 125]))))))))))))))))))))

/-- `JSON.parse` specialized to the draft object shape produced by
`serializeDraft`: a five-key object of string values in the serialized
key order. -/
def parseDraft (s : String) : Option IFormData := do
  let r0 ← expectChar (Char.ofNat 123) s.data
  let (k1, v1, r1) ← parsePair r0
  let r1b ← expectChar (Char.ofNat 44) r1
  let (k2, v2, r2) ← parsePair r1b
  let r2b ← expectChar (Char.ofNat 44) r2
  let (k3, v3, r3) ← parsePair r2b
  let r3b ← expectChar (Char.ofNat 44) r3
  let (k4, v4, r4) ← parsePair r3b
  let r4b ← expectChar (Char.ofNat 44) r4
  let (k5, v5, r5) ← parsePair r4b
  let r6 ← expectChar (Char.ofNat 125) r5
  if r6 == ([] : List Char) && k1 == "name".data && k2 == "productLine".data &&
     k3 == "erCode".data && k4 == "description".data &&
     k5 == "modelNumber".data then
    some { name := String.mk v1, productLine := String.mk v2,
           erCode := String.mk v3, description := String.mk v4,
           modelNumber := String.mk v5 }
  else none

/-- `handleSaveDraft`: `localStorage.setItem(DRAFT_KEY, JSON.stringify(formData))`,
modelled as the stored value under the draft key. -/
def handleSaveDraft (d : IFormData) : Option String := some (serializeDraft d)

/-- The load-on-start effect: read the draft key, and when present parse
it and adopt it as form state; a missing key or a parse failure leaves
the current state. -/
def loadDraftOnStart (storage : Option String) (current : IFormData) : IFormData :=
  match storage with
  | none => current
  | some s =>
    match parseDraft s with
    | some d => d
    | none => current

/-! ### Concrete sample data shared by several theorems -/

/-- A request body satisfying every server schema constraint. -/
def sampleGoodBody : RawBody :=
  { name := "John Doe", productLine := "CM", erCode := "ER123456",
    description := "A valid description", modelNumber := "AB1234C",
    submittedAt := none }

/-- The record the server persists for `sampleGoodBody` with id `x` at
time 7. -/
def sampleStored : Submission :=
  { id := "x", name := "John Doe", productLine := "CM",
    erCode := "ER123456", description := "A valid description",
    modelNumber := "AB1234C", submittedAt := 7 }

/-! ### Helper lemmas -/

/-- A successful `find?` splits the list around the found element, and
`eraseP` removes exactly that element. -/
theorem find?_eraseP_split {α : Type} (p : α → Bool) (l : List α) (a : α)
    (h : l.find? p = some a) :
    ∃ pre post, l = pre ++ a :: post ∧ l.eraseP p = pre ++ post ∧
      ∀ x ∈ pre, p x = false := by
  induction l with
  | nil => simp at h
  | cons b l ih =>
    by_cases hb : p b
    · rw [List.find?_cons_of_pos _ hb] at h
      obtain rfl : b = a := by simpa using h
      exact ⟨[], l, by simp, by simp [List.eraseP_cons_of_pos hb], by simp⟩
    · rw [List.find?_cons_of_neg _ hb] at h
      obtain ⟨pre, post, h1, h2, h3⟩ := ih h
      refine ⟨b :: pre, post, by simp [h1], ?_, ?_⟩
      · simp [List.eraseP_cons_of_neg hb, h2]
      · intro x hx
        rcases List.mem_cons.mp hx with rfl | hx
        · simpa using hb
        · exact h3 x hx
  
/-- Every violated schema path contributes its message to the error
list of the 400 response. -/
theorem validationErrors_complete (b : RawBody) :
    (∀ m, checkName b.name = some m → m ∈ validationErrors b) ∧
    (∀ m, checkProductLine b.productLine = some m → m ∈ validationErrors b) ∧
    (∀ m, checkERCode b.erCode = some m → m ∈ validationErrors b) ∧
    (∀ m, checkDescription b.description = some m → m ∈ validationErrors b) ∧
    (∀ m, checkModelNumber b.modelNumber = some m → m ∈ validationErrors b) := by
  unfold validationErrors
  cases h1 : checkName b.name <;>
    cases h2 : checkProductLine b.productLine <;>
    cases h3 : checkERCode b.erCode <;>
    cases h4 : checkDescription b.description <;>
    cases h5 : checkModelNumber b.modelNumber <;>
    simp [List.filterMap_cons]

/-! ### Claim C9: the client name validator -/

/-- C9 counterexample: the string `A<TAB>B` is accepted by
`validateName` (the code tests `/^[a-zA-Z\s]+$/`, and `\s` matches the
tab) although it contains a character that is neither a letter nor a
space, so the validator does not accept exactly the strings matching
`^[A-Za-z ]+$`. -/
theorem claim9_counterexample :
    (validateName (String.mk [Char.ofNat 65, Char.ofNat 9, Char.ofNat 66])).isValid
        = true ∧
    (String.mk [Char.ofNat 65, Char.ofNat 9, Char.ofNat 66]).data.all
        (fun c => isAsciiLetter c || c = Char.ofNat 32) = false := by
  constructor
  · decide
  · decide

/-- C9 (amended): `validateName` returns `isValid = true` exactly for
the non-empty strings of length at least 2 all of whose characters are
ASCII letters or JavaScript whitespace (the class `\s`, which contains
the space but also tab, newlines and further Unicode whitespace); any
string violating one of these conditions yields `isValid = false`. -/
theorem claim9_name_validator (s : String) :
    (validateName s).isValid = true ↔
      (s ≠ "" ∧ 2 ≤ s.length ∧
       s.data.all (fun c => isAsciiLetter c || isJsWhitespace c) = true) := by
  unfold validateName
  split_ifs with h1 h2 h3
  · simp [h1]
  · simp only [Bool.false_eq_true, false_iff]
    rintro ⟨-, hlen, -⟩
    omega
  · simp only [Bool.false_eq_true, false_iff]
    rintro ⟨hne, -, hall⟩
    rw [Bool.not_eq_true'] at h3
    have hdata : s.data ≠ [] := fun hd => hne (by
      cases s with
      | mk l => simp_all)
    simp [matchNameRegex, hall, List.isEmpty_iff, hdata] at h3
  · simp only [true_iff]
    rw [Bool.not_eq_true'] at h3
    simp only [Bool.not_eq_false] at h3
    refine ⟨h1, by omega, ?_⟩
    simp only [matchNameRegex, Bool.and_eq_true] at h3
    exact h3.2

/-! ### Claim C7: overall form validity gates the network call -/

/-- C7: overall form validity equals the conjunction of the five
per-field validators reporting `isValid` and the five values being
non-blank after trimming; when the form is not valid (in particular on
the all-empty form) `handleSubmit` makes no network call. -/
theorem claim7_form_validity :
    (∀ d : IFormData,
      isFormValid d = true ↔
        ((validateName d.name).isValid = true ∧
         (validateProductLine d.productLine).isValid = true ∧
         (validateERCode d.erCode).isValid = true ∧
         (validateDescription d.description).isValid = true ∧
         (validateModelNumber d.modelNumber).isValid = true ∧
         jsTrim d.name ≠ "" ∧ jsTrim d.productLine ≠ "" ∧
         jsTrim d.erCode ≠ "" ∧ jsTrim d.description ≠ "" ∧
         jsTrim d.modelNumber ≠ "")) ∧
    (∀ d : IFormData, isFormValid d = false →
      handleSubmit d = SubmitAction.noCall) ∧
    handleSubmit emptyForm = SubmitAction.noCall := by
  refine ⟨?_, ?_, by decide⟩
  · intro d
    simp only [isFormValid, formValidations, formValues, List.all_cons,
      List.all_nil, Bool.and_eq_true, Bool.and_true, bne_iff_ne, ne_eq]
    tauto
  · intro d h
    simp [handleSubmit, h]

/-- C7 witness: the empty form is invalid and submits nothing. -/
theorem claim7_form_validity_witness :
    isFormValid emptyForm = false ∧ handleSubmit emptyForm = SubmitAction.noCall :=
  ⟨by decide, claim7_form_validity.2.1 emptyForm (by decide)⟩

/-! ### Claim C2: the stored timestamp is server-assigned -/

/-- C2: the `Create` handler's result does not depend on the
client-attached `submittedAt`; on success the persisted record carries
the server timestamp and is appended to the store, and in particular a
body built by `apiService.submitForm` (which attaches a client
timestamp) is stored with the server timestamp. -/
theorem claim2_server_assigned_timestamp :
    (∀ (body : RawBody) (t1 t2 : Option String) (newId : String) (now : Nat)
       (store : List Submission),
      createSubmission { body with submittedAt := t1 } newId now store =
        createSubmission { body with submittedAt := t2 } newId now store) ∧
    (∀ (body : RawBody) (newId : String) (now : Nat) (store : List Submission)
       (r : Submission) (store2 : List Submission),
      createSubmission body newId now store = (CreateResult.created r, store2) →
      r.submittedAt = now ∧ store2 = store ++ [r]) ∧
    (∀ (d : IFormData) (clientNow : String) (newId : String) (now : Nat)
       (store : List Submission) (r : Submission) (store2 : List Submission),
      createSubmission (submitFormBody d clientNow) newId now store =
        (CreateResult.created r, store2) → r.submittedAt = now) := by
  have hmain : ∀ (body : RawBody) (newId : String) (now : Nat)
      (store : List Submission) (r : Submission) (store2 : List Submission),
      createSubmission body newId now store = (CreateResult.created r, store2) →
      r.submittedAt = now ∧ store2 = store ++ [r] := by
    intro body newId now store r store2 h
    simp only [createSubmission] at h
    split at h
    · simp at h
    · split at h
      · simp only [Prod.mk.injEq, CreateResult.created.injEq] at h
        obtain ⟨rfl, rfl⟩ := h
        exact ⟨rfl, rfl⟩
      · simp at h
  refine ⟨?_, hmain, ?_⟩
  · intro body t1 t2 newId now store
    simp [createSubmission, sanitizeBody, validationErrors]
  · intro d clientNow newId now store r store2 h
    exact (hmain _ _ _ _ _ _ h).1

/-- C2 witness: submitting a valid body at server time 7 stores the
record with `submittedAt = 7`. -/
theorem claim2_server_assigned_timestamp_witness :
    sampleStored.submittedAt = 7 ∧
    [sampleStored] = ([] : List Submission) ++ [sampleStored] :=
  claim2_server_assigned_timestamp.2.1 sampleGoodBody "x" 7 [] sampleStored
    [sampleStored] (by decide)

/-! ### Claim C3: retry behaviour of `apiService.submitForm` -/

/-- Unfolding `submitForm` on a successful attempt. -/
theorem submitForm_step_success (world : Nat → AttemptOutcome)
    (attempt retries : Nat) (r : Submission)
    (h : world attempt = AttemptOutcome.success r) :
    submitForm world attempt retries =
      ({ success := true, message := "Form submitted successfully",
         data := some r }, 1, 0) := by
  unfold submitForm
  rw [h]

/-- Unfolding `submitForm` on a failure with no retries left. -/
theorem submitForm_step_zero (world : Nat → AttemptOutcome) (attempt : Nat)
    (code : String) (bm : Option String) (em : String)
    (h : world attempt = AttemptOutcome.failure code bm em) :
    submitForm world attempt 0 =
      ({ success := false, message := errorMessageOf bm em, data := none },
       1, 0) := by
  unfold submitForm
  rw [h]

/-- Unfolding `submitForm` on a non-retryable failure. -/
theorem submitForm_step_stop (world : Nat → AttemptOutcome) (attempt n : Nat)
    (code : String) (bm : Option String) (em : String)
    (h : world attempt = AttemptOutcome.failure code bm em)
    (hc : (code == networkErrorCode) = false) :
    submitForm world attempt (n + 1) =
      ({ success := false, message := errorMessageOf bm em, data := none },
       1, 0) := by
  unfold submitForm
  rw [h]
  simp [hc]

/-- Unfolding `submitForm` on a retryable network failure. -/
theorem submitForm_step_retry (world : Nat → AttemptOutcome) (attempt n : Nat)
    (code : String) (bm : Option String) (em : String)
    (h : world attempt = AttemptOutcome.failure code bm em)
    (hc : (code == networkErrorCode) = true) :
    submitForm world attempt (n + 1) =
      ((submitForm world (attempt + 1) n).1,
       (submitForm world (attempt + 1) n).2.1 + 1,
       (submitForm world (attempt + 1) n).2.2 + 1) := by
  conv_lhs => unfold submitForm
  rw [h]
  simp [hc]

/-- A world in which the first two attempts fail with the retry-eligible
network error and the third succeeds. -/
def retryWorld : Nat → AttemptOutcome :=
  fun n =>
    if n < 2 then AttemptOutcome.failure networkErrorCode none "Network Error"
    else AttemptOutcome.success sampleStored

/-- A world in which every attempt fails with a non-network timeout
error carrying no server response body. -/
def timeoutWorld : Nat → AttemptOutcome :=
  fun _ =>
    AttemptOutcome.failure "ECONNABORTED" none "timeout of 10000ms exceeded"

/-- A world in which every attempt fails with a 400 rejection whose
response body carries a message. -/
def badRequestWorld : Nat → AttemptOutcome :=
  fun _ =>
    AttemptOutcome.failure "ERR_BAD_REQUEST" (some "Validation failed")
      "Request failed with status code 400"

/-- C3 counterexample: a non-network failure with no server error body
is surfaced with the error object's own `message`
(`timeout of 10000ms exceeded`), not with the generic fallback message,
so the claim's `else a generic message` does not hold as stated. -/
theorem claim3_counterexample :
    timeoutWorld 0 =
      AttemptOutcome.failure "ECONNABORTED" none "timeout of 10000ms exceeded" ∧
    (submitForm timeoutWorld 0 defaultRetries).1 =
      { success := false, message := "timeout of 10000ms exceeded",
        data := none } ∧
    "timeout of 10000ms exceeded" ≠ genericSubmitError := by
  refine ⟨rfl, by decide, by decide⟩

/-- C3 (amended): `submitForm` retries only failures whose code is the
retry-eligible `NETWORK_ERROR`, up to the fixed retry count (default 3)
with one 1-second delay between consecutive attempts; two consecutive
network failures followed by a success yield a success result after
exactly 3 total attempts (and 2 delays).  A non-network failure is not
retried and is returned as `{success: false, message}` where `message`
is taken from the server's error body when present and non-empty, else
from the error's own message when non-empty, else a fixed generic
message. -/
theorem claim3_retry_behavior :
    (submitForm retryWorld 0 defaultRetries =
      ({ success := true, message := "Form submitted successfully",
         data := some sampleStored }, 3, 2)) ∧
    (∀ (world : Nat → AttemptOutcome) (code : String) (bm : Option String)
       (em : String) (retries : Nat),
      world 0 = AttemptOutcome.failure code bm em → code ≠ networkErrorCode →
      submitForm world 0 retries =
        ({ success := false, message := errorMessageOf bm em, data := none },
         1, 0)) ∧
    (∀ (world : Nat → AttemptOutcome) (attempt retries : Nat),
      (submitForm world attempt retries).2.1 ≤ retries + 1) ∧
    (∀ (world : Nat → AttemptOutcome) (attempt retries k : Nat),
      k + 1 < (submitForm world attempt retries).2.1 →
      ∃ bm em, world (attempt + k) =
        AttemptOutcome.failure networkErrorCode bm em) ∧
    (∀ (world : Nat → AttemptOutcome) (attempt retries : Nat),
      (submitForm world attempt retries).2.2 + 1 =
        (submitForm world attempt retries).2.1) := by
  refine ⟨by decide, ?_, ?_, ?_, ?_⟩
  · intro world code bm em retries h1 h2
    have hbeq : (code == networkErrorCode) = false := by simp [h2]
    cases retries with
    | zero => exact submitForm_step_zero world 0 code bm em h1
    | succ n => exact submitForm_step_stop world 0 n code bm em h1 hbeq
  · intro world attempt retries
    induction retries generalizing attempt with
    | zero =>
      cases h : world attempt with
      | success r => rw [submitForm_step_success world attempt 0 r h]
      | failure code bm em => rw [submitForm_step_zero world attempt code bm em h]
    | succ n ih =>
      cases h : world attempt with
      | success r =>
        rw [submitForm_step_success world attempt (n + 1) r h]
        show (1 : Nat) ≤ n + 1 + 1
        omega
      | failure code bm em =>
        by_cases hc : (code == networkErrorCode) = true
        · rw [submitForm_step_retry world attempt n code bm em h hc]
          have hb := ih (attempt + 1)
          show (submitForm world (attempt + 1) n).2.1 + 1 ≤ n + 1 + 1
          omega
        · rw [submitForm_step_stop world attempt n code bm em h
            (Bool.not_eq_true _ ▸ hc)]
          show (1 : Nat) ≤ n + 1 + 1
          omega
  · intro world attempt retries
    induction retries generalizing attempt with
    | zero =>
      intro k hk
      cases h : world attempt with
      | success r =>
        rw [submitForm_step_success world attempt 0 r h] at hk
        have hk2 : k + 1 < 1 := hk
        exact absurd hk2 (by omega)
      | failure code bm em =>
        rw [submitForm_step_zero world attempt code bm em h] at hk
        have hk2 : k + 1 < 1 := hk
        exact absurd hk2 (by omega)
    | succ n ih =>
      intro k hk
      cases h : world attempt with
      | success r =>
        rw [submitForm_step_success world attempt (n + 1) r h] at hk
        have hk2 : k + 1 < 1 := hk
        exact absurd hk2 (by omega)
      | failure code bm em =>
        by_cases hc : (code == networkErrorCode) = true
        · cases k with
          | zero =>
            refine ⟨bm, em, ?_⟩
            rw [Nat.add_zero, h, beq_iff_eq.mp hc]
          | succ k2 =>
            rw [submitForm_step_retry world attempt n code bm em h hc] at hk
            have hk2 : k2 + 1 < (submitForm world (attempt + 1) n).2.1 := by
              have hk3 : k2 + 1 + 1 <
                  (submitForm world (attempt + 1) n).2.1 + 1 := hk
              omega
            obtain ⟨bm2, em2, h2⟩ := ih (attempt + 1) k2 hk2
            refine ⟨bm2, em2, ?_⟩
            have harith : attempt + 1 + k2 = attempt + (k2 + 1) := by omega
            rw [← harith]
            exact h2
        · rw [submitForm_step_stop world attempt n code bm em h
            (Bool.not_eq_true _ ▸ hc)] at hk
          have hk2 : k + 1 < 1 := hk
          exact absurd hk2 (by omega)
  · intro world attempt retries
    induction retries generalizing attempt with
    | zero =>
      cases h : world attempt with
      | success r => rw [submitForm_step_success world attempt 0 r h]
      | failure code bm em => rw [submitForm_step_zero world attempt code bm em h]
    | succ n ih =>
      cases h : world attempt with
      | success r => rw [submitForm_step_success world attempt (n + 1) r h]
      | failure code bm em =>
        by_cases hc : (code == networkErrorCode) = true
        · rw [submitForm_step_retry world attempt n code bm em h hc]
          have hd := ih (attempt + 1)
          show (submitForm world (attempt + 1) n).2.2 + 1 + 1 =
            (submitForm world (attempt + 1) n).2.1 + 1
          omega
        · rw [submitForm_step_stop world attempt n code bm em h
            (Bool.not_eq_true _ ▸ hc)]

/-- C3 witness: a 400 rejection carrying a server body message is not
retried and surfaces that message; in the two-failures-then-success
world the first attempt was indeed a network failure. -/
theorem claim3_retry_behavior_witness :
    (submitForm badRequestWorld 0 defaultRetries =
      ({ success := false, message := errorMessageOf (some "Validation failed")
          "Request failed with status code 400", data := none }, 1, 0)) ∧
    (∃ bm em, retryWorld (0 + 0) =
      AttemptOutcome.failure networkErrorCode bm em) :=
  ⟨claim3_retry_behavior.2.1 badRequestWorld "ERR_BAD_REQUEST"
      (some "Validation failed") "Request failed with status code 400"
      defaultRetries rfl (by decide),
   claim3_retry_behavior.2.2.2.1 retryWorld 0 defaultRetries 0 (by decide)⟩

/-! ### Claim C4: pagination of the `List` handler -/

/-- A store holding exactly 12 records with distinct timestamps. -/
def twelveStore : List Submission :=
  (List.range 12).map (fun i =>
    { id := "x", name := "John Doe", productLine := "CM",
      erCode := "ER123456", description := "A valid description",
      modelNumber := "AB1234C", submittedAt := i })

/-- C4: listing page 2 with limit 5 over 12 stored records returns
exactly 5 records with `current = 2`, `total = 3`, `hasMore = true`;
absent query parameters behave as page 1 and limit 10; and the returned
records are always sorted by `submittedAt` descending. -/
theorem claim4_pagination :
    ((listSubmissions twelveStore (some 2) (some 5)).1.length = 5 ∧
     (listSubmissions twelveStore (some 2) (some 5)).2 =
       { current := 2, total := 3, hasMore := true }) ∧
    (∀ store : List Submission,
      listSubmissions store none none = listSubmissions store (some 1) (some 10)) ∧
    (∀ (store : List Submission) (pageQ limitQ : Option Nat),
      List.Sorted byNewest (listSubmissions store pageQ limitQ).1) := by
  refine ⟨⟨by decide, by decide⟩, ?_, ?_⟩
  · intro store
    rfl
  · intro store pageQ limitQ
    have hs : List.Sorted byNewest (store.insertionSort byNewest) :=
      List.sorted_insertionSort byNewest store
    have hsub :
        (((store.insertionSort byNewest).drop
            ((pageParam pageQ 1 - 1) * pageParam limitQ 10)).take
          (pageParam limitQ 10)).Sublist (store.insertionSort byNewest) :=
      (List.take_sublist _ _).trans (List.drop_sublist _ _)
    exact List.Pairwise.sublist hsub hs

/-! ### Claim C5: id validation for `Get by id` and `Delete by id` -/

/-- A record whose id is a well-formed 12-character identifier. -/
def storedTwelveId : Submission :=
  { id := "aaaaaaaaaaaa", name := "John Doe", productLine := "CM",
    erCode := "ER123456", description := "A valid description",
    modelNumber := "AB1234C", submittedAt := 7 }

/-- C5: a malformed id produces the bad-id error on both get and delete,
with a result independent of the store contents (no store query) and
distinct from not-found; a well-formed id absent from the store produces
the same not-found shape on both, leaving the store unchanged; delete on
a present id removes exactly that record and confirms. -/
theorem claim5_id_handling (id : String) (store : List Submission) :
    (isValidObjectId id = false →
       getSubmissionById id store = IdResult.badId "Invalid submission ID" ∧
       deleteSubmissionById id store =
         (IdResult.badId "Invalid submission ID", store)) ∧
    (isValidObjectId id = true →
     store.find? (fun r => r.id == id) = none →
       getSubmissionById id store = IdResult.notFound "Submission not found" ∧
       deleteSubmissionById id store =
         (IdResult.notFound "Submission not found", store)) ∧
    (∀ r : Submission, isValidObjectId id = true →
     store.find? (fun x => x.id == id) = some r →
       (deleteSubmissionById id store).1 =
         IdResult.ok "Submission deleted successfully" ∧
       ∃ pre post, store = pre ++ r :: post ∧
         (deleteSubmissionById id store).2 = pre ++ post ∧
         ∀ x ∈ pre, (x.id == id) = false) := by
  refine ⟨?_, ?_, ?_⟩
  · intro hv
    constructor
    · simp [getSubmissionById, hv]
    · simp [deleteSubmissionById, hv]
  · intro hv hf
    constructor
    · simp [getSubmissionById, hv, hf]
    · simp [deleteSubmissionById, hv, hf]
  · intro r hv hf
    obtain ⟨pre, post, h1, h2, h3⟩ :=
      find?_eraseP_split (fun x => x.id == id) store r hf
    refine ⟨by simp [deleteSubmissionById, hv, hf], pre, post, h1, ?_, h3⟩
    simp [deleteSubmissionById, hv, hf, h2]

/-- C5 witness: concrete malformed id `zzz`, well-formed absent id, and
well-formed present id over a one-record store. -/
theorem claim5_id_handling_witness :
    (getSubmissionById "zzz" [] = IdResult.badId "Invalid submission ID" ∧
     deleteSubmissionById "zzz" [] =
       (IdResult.badId "Invalid submission ID", []) ) ∧
    (getSubmissionById "aaaaaaaaaaaa" [] =
       IdResult.notFound "Submission not found" ∧
     deleteSubmissionById "aaaaaaaaaaaa" [] =
       (IdResult.notFound "Submission not found", []) ) ∧
    ((deleteSubmissionById "aaaaaaaaaaaa" [storedTwelveId]).1 =
       IdResult.ok "Submission deleted successfully" ∧
     ∃ pre post, [storedTwelveId] = pre ++ storedTwelveId :: post ∧
       (deleteSubmissionById "aaaaaaaaaaaa" [storedTwelveId]).2 = pre ++ post ∧
       ∀ x ∈ pre, (x.id == "aaaaaaaaaaaa") = false) :=
  ⟨(claim5_id_handling "zzz" []).1 (by decide),
   (claim5_id_handling "aaaaaaaaaaaa" []).2.1 (by decide) (by decide),
   (claim5_id_handling "aaaaaaaaaaaa" [storedTwelveId]).2.2 storedTwelveId
     (by decide) (by decide)⟩

/-! ### Sanitization fixed points -/

/-- `dropWhile` is the identity on a list none of whose elements satisfy
the predicate. -/
theorem dropWhile_eq_self_of_none {α : Type} (p : α → Bool) (l : List α)
    (h : ∀ c ∈ l, p c = false) : l.dropWhile p = l := by
  cases l with
  | nil => rfl
  | cons a l =>
    have ha : p a = false := h a (List.mem_cons_self a l)
    simp [List.dropWhile_cons, ha]

/-- Flattening a character-wise escape that fixes every character is the
identity. -/
theorem flatten_map_eq_self (l : List Char)
    (h : ∀ c ∈ l, escapeHtmlChar c = [c]) :
    (l.map escapeHtmlChar).flatten = l := by
  induction l with
  | nil => rfl
  | cons a l ih =>
    have ha := h a (List.mem_cons_self a l)
    simp only [List.map_cons, List.flatten_cons, ha, List.cons_append,
      List.nil_append]
    rw [ih (fun c hc => h c (List.mem_cons_of_mem a hc))]

/-- `sanitizeField` fixes every string whose characters are neither
JavaScript whitespace nor HTML-escapable. -/
theorem sanitizeField_eq_self (s : String)
    (h : ∀ c ∈ s.data, isJsWhitespace c = false ∧ escapeHtmlChar c = [c]) :
    sanitizeField s = s := by
  unfold sanitizeField validatorEscape jsTrim
  have h1 : s.data.dropWhile isJsWhitespace = s.data :=
    dropWhile_eq_self_of_none _ _ (fun c hc => (h c hc).1)
  rw [h1]
  have h2 : s.data.reverse.dropWhile isJsWhitespace = s.data.reverse :=
    dropWhile_eq_self_of_none _ _
      (fun c hc => (h c (List.mem_reverse.mp hc)).1)
  rw [h2, List.reverse_reverse]
  show String.mk ((s.data.map escapeHtmlChar).flatten) = s
  rw [flatten_map_eq_self s.data (fun c hc => (h c hc).2)]

/-- A character that is an ASCII uppercase letter, an ASCII digit or the
dash is neither JavaScript whitespace nor HTML-escapable. -/
theorem safeChar (c : Char)
    (h : isAsciiUpper c = true ∨ isAsciiDigit c = true ∨ c = Char.ofNat 45) :
    isJsWhitespace c = false ∧ escapeHtmlChar c = [c] := by
  have hn : (65 ≤ c.toNat ∧ c.toNat ≤ 90) ∨ (48 ≤ c.toNat ∧ c.toNat ≤ 57) ∨
      c.toNat = 45 := by
    rcases h with h | h | h
    · left
      simpa [isAsciiUpper] using h
    · right; left
      simpa [isAsciiDigit] using h
    · right; right
      rw [h]
      decide
  constructor
  · unfold isJsWhitespace
    simp only [Bool.or_eq_false_iff, Bool.and_eq_false_iff,
      decide_eq_false_iff_not]
    omega
  · unfold escapeHtmlChar
    rw [if_neg (by intro he; rw [he] at hn; revert hn; decide),
        if_neg (by intro he; rw [he] at hn; revert hn; decide),
        if_neg (by intro he; rw [he] at hn; revert hn; decide),
        if_neg (by intro he; rw [he] at hn; revert hn; decide),
        if_neg (by intro he; rw [he] at hn; revert hn; decide),
        if_neg (by intro he; rw [he] at hn; revert hn; decide),
        if_neg (by intro he; rw [he] at hn; revert hn; decide),
        if_neg (by intro he; rw [he] at hn; revert hn; decide)]

/-! ### Claim C1: client/server `productLine` mismatch -/

/-- `List.contains` agrees with membership for strings. -/
theorem contains_iff_mem_str (l : List String) (v : String) :
    l.contains v = true ↔ v ∈ l := by
  simp [List.contains, List.elem_iff]

/-- A string matching the client `productLine` pattern is non-empty, has
length at least 5, and consists only of uppercase letters, digits and
the dash. -/
theorem productLine_match_chars (s : String)
    (h : matchProductLineRegex s = true) :
    s ≠ "" ∧ 5 ≤ s.length ∧
    ∀ c ∈ s.data,
      isAsciiUpper c = true ∨ isAsciiDigit c = true ∨ c = Char.ofNat 45 := by
  unfold matchProductLineRegex at h
  cases hr : s.data.dropWhile isAsciiUpper with
  | nil =>
    rw [hr] at h
    simp at h
  | cons c ds =>
    rw [hr] at h
    simp only [Bool.and_eq_true, decide_eq_true_eq, List.all_eq_true] at h
    obtain ⟨⟨h2, h4⟩, ⟨⟨hc, hds2⟩, hds4⟩, hdig⟩ := h
    have hsplit : s.data = s.data.takeWhile isAsciiUpper ++ c :: ds := by
      rw [← hr, List.takeWhile_append_dropWhile]
    have hlen : s.length =
        (s.data.takeWhile isAsciiUpper).length + (ds.length + 1) := by
      show s.data.length = _
      conv_lhs => rw [hsplit]
      simp [List.length_append]
    refine ⟨?_, ?_, ?_⟩
    · intro hempty
      have hnil : s.data = [] := by rw [hempty]
      rw [hnil] at hsplit
      exact absurd hsplit.symm (by simp)
    · omega
    · intro x hx
      rw [hsplit] at hx
      rcases List.mem_append.mp hx with hx | hx
      · exact Or.inl (List.mem_takeWhile_imp hx)
      · rcases List.mem_cons.mp hx with rfl | hx
        · exact Or.inr (Or.inr hc)
        · exact Or.inr (Or.inl (hdig x hx))

/-- Sanitization fixes every client-valid `productLine` value. -/
theorem sanitizeField_of_productLine_match (s : String)
    (h : matchProductLineRegex s = true) : sanitizeField s = s :=
  sanitizeField_eq_self s
    (fun c hc => safeChar c ((productLine_match_chars s h).2.2 c hc))

/-- No enum value of the server schema matches the client pattern. -/
theorem enum_no_match :
    ∀ v ∈ productLineEnumValues, matchProductLineRegex v = false := by
  decide

/-- C1: the client accepts exactly the non-empty strings of length at
least 3 matching `^[A-Z]{2,4}-[0-9]{2,4}$`; the server schema accepts
exactly the 38 enum values; the two sets are disjoint; and every body
whose `productLine` passes the client validator is rejected by `Create`
— never persisted, and answered with a validation error naming the
product line whenever the sanitized fields are all present. -/
theorem claim1_product_line_mismatch :
    productLineEnumValues.length = 38 ∧
    (∀ s, (validateProductLine s).isValid = true ↔
       (s ≠ "" ∧ 3 ≤ s.length ∧ matchProductLineRegex s = true)) ∧
    (∀ v, v ≠ "" → (checkProductLine v = none ↔ v ∈ productLineEnumValues)) ∧
    (∀ s, (validateProductLine s).isValid = true →
       (s ∈ productLineEnumValues → False)) ∧
    (∀ (body : RawBody) (newId : String) (now : Nat) (store : List Submission),
      (validateProductLine body.productLine).isValid = true →
      ((∀ (r : Submission) (store2 : List Submission),
         createSubmission body newId now store ≠ (CreateResult.created r, store2)) ∧
       ((sanitizeBody body).name ≠ "" → (sanitizeBody body).erCode ≠ "" →
        (sanitizeBody body).description ≠ "" →
        (sanitizeBody body).modelNumber ≠ "" →
        ∃ errs, (createSubmission body newId now store).1 =
            CreateResult.validationFailed errs ∧
          "Please select a valid product line" ∈ errs))) := by
  have hiff : ∀ s, (validateProductLine s).isValid = true ↔
      (s ≠ "" ∧ 3 ≤ s.length ∧ matchProductLineRegex s = true) := by
    intro s
    unfold validateProductLine
    split_ifs with h1 h2 h3
    · simp [h1]
    · simp only [Bool.false_eq_true, false_iff]
      rintro ⟨-, hlen, -⟩
      omega
    · simp only [Bool.false_eq_true, false_iff]
      rintro ⟨-, -, hm⟩
      rw [Bool.not_eq_true'] at h3
      rw [hm] at h3
      cases h3
    · simp only [true_iff]
      rw [Bool.not_eq_true', Bool.not_eq_false] at h3
      exact ⟨h1, by omega, h3⟩
  have hmatch_of_valid : ∀ s, (validateProductLine s).isValid = true →
      matchProductLineRegex s = true := fun s hs => ((hiff s).mp hs).2.2
  have hdisj : ∀ s, (validateProductLine s).isValid = true →
      (s ∈ productLineEnumValues → False) := by
    intro s hs hmem
    have hm := hmatch_of_valid s hs
    have hno := enum_no_match s hmem
    rw [hm] at hno
    cases hno
  refine ⟨by decide, hiff, ?_, hdisj, ?_⟩
  · intro v hv
    unfold checkProductLine
    rw [if_neg hv]
    by_cases hc : productLineEnumValues.contains v = true
    · rw [hc]
      simp [contains_iff_mem_str _ v |>.mp hc]
    · rw [Bool.not_eq_true] at hc
      rw [hc]
      simp only [Bool.not_false, if_true]
      constructor
      · intro hcontra
        cases hcontra
      · intro hmem
        rw [← contains_iff_mem_str _ v] at hmem
        rw [hmem] at hc
        cases hc
  · intro body newId now store hvalid
    have hm := hmatch_of_valid _ hvalid
    have hsan : sanitizeField body.productLine = body.productLine :=
      sanitizeField_of_productLine_match _ hm
    have hne : body.productLine ≠ "" := (productLine_match_chars _ hm).1
    have hplne : (sanitizeBody body).productLine ≠ "" := by
      show sanitizeField body.productLine ≠ ""
      rw [hsan]
      exact hne
    have hcont : productLineEnumValues.contains body.productLine = false := by
      rw [Bool.eq_false_iff]
      intro hc
      exact hdisj _ hvalid ((contains_iff_mem_str _ _).mp hc)
    have hcheck : checkProductLine (sanitizeBody body).productLine =
        some "Please select a valid product line" := by
      show checkProductLine (sanitizeField body.productLine) = _
      rw [hsan]
      unfold checkProductLine
      rw [if_neg hne, hcont]
      rfl
    have hmem : "Please select a valid product line" ∈
        validationErrors (sanitizeBody body) :=
      (validationErrors_complete (sanitizeBody body)).2.1 _ hcheck
    have hne2 : validationErrors (sanitizeBody body) ≠ [] := by
      intro hnil
      rw [hnil] at hmem
      cases hmem
    constructor
    · intro r store2 heq
      simp only [createSubmission] at heq
      split at heq
      · simp at heq
      · split at heq
        · next hempty =>
          rw [List.isEmpty_iff] at hempty
          exact hne2 hempty
        · simp at heq
    · intro hn1 hn2 hn3 hn4
      refine ⟨validationErrors (sanitizeBody body), ?_, hmem⟩
      simp only [createSubmission]
      split
      · next hfalse =>
        simp only [Bool.or_eq_true, decide_eq_true_eq] at hfalse
        rcases hfalse with ((((h | h) | h) | h) | h) <;> first
          | exact absurd h hn1
          | exact absurd h hplne
          | exact absurd h hn2
          | exact absurd h hn3
          | exact absurd h hn4
      · split
        · next hempty =>
          rw [List.isEmpty_iff] at hempty
          exact absurd hempty hne2
        · rfl

/-- C1 witness: the value `AB-12` passes the client validator, is not in
the enum, and a body carrying it is rejected with the product-line
validation message. -/
theorem claim1_product_line_mismatch_witness :
    ((validateProductLine "AB-12").isValid = true →
      ("AB-12" ∈ productLineEnumValues → False)) ∧
    (∃ errs, (createSubmission
        { sampleGoodBody with productLine := "AB-12" } "x" 0 []).1 =
          CreateResult.validationFailed errs ∧
        "Please select a valid product line" ∈ errs) :=
  ⟨claim1_product_line_mismatch.2.2.2.1 "AB-12",
   (claim1_product_line_mismatch.2.2.2.2
       { sampleGoodBody with productLine := "AB-12" } "x" 0 [] (by decide)).2
     (by decide) (by decide) (by decide) (by decide)⟩

/-! ### Claim C6: `Create` validation of `erCode` and the 400 contract -/

/-- The good body with a five-digit (too short) `erCode`. -/
def erCode5Body : RawBody := { sampleGoodBody with erCode := "ER12345" }

/-- C6: a POST with `erCode = ER12345` and all other fields valid is
rejected with the 400 validation response naming the `erCode`
constraint; a POST with `erCode = ER123456` succeeds with the persisted
record; every 400 validation response lists the message of each
violated field of the sanitized body and leaves the store unchanged,
and the missing-fields 400 also writes nothing. -/
theorem claim6_ercode_validation :
    (createSubmission erCode5Body "x" 0 [] =
      (CreateResult.validationFailed
        ["ER Code format must be ER followed by 6 digits"], [])) ∧
    (createSubmission sampleGoodBody "x" 7 [] =
      (CreateResult.created sampleStored, [sampleStored])) ∧
    (∀ (body : RawBody) (newId : String) (now : Nat)
       (store : List Submission) (errs : List String)
       (store2 : List Submission),
      createSubmission body newId now store =
        (CreateResult.validationFailed errs, store2) →
      store2 = store ∧ errs = validationErrors (sanitizeBody body) ∧
      (∀ m, checkName (sanitizeBody body).name = some m → m ∈ errs) ∧
      (∀ m, checkProductLine (sanitizeBody body).productLine = some m →
        m ∈ errs) ∧
      (∀ m, checkERCode (sanitizeBody body).erCode = some m → m ∈ errs) ∧
      (∀ m, checkDescription (sanitizeBody body).description = some m →
        m ∈ errs) ∧
      (∀ m, checkModelNumber (sanitizeBody body).modelNumber = some m →
        m ∈ errs)) ∧
    (∀ (body : RawBody) (newId : String) (now : Nat)
       (store : List Submission),
      (createSubmission body newId now store).1 = CreateResult.missingFields →
      (createSubmission body newId now store).2 = store) := by
  refine ⟨by decide, by decide, ?_, ?_⟩
  · intro body newId now store errs store2 h
    simp only [createSubmission] at h
    split at h
    · simp at h
    · split at h
      · simp at h
      · simp only [Prod.mk.injEq, CreateResult.validationFailed.injEq] at h
        obtain ⟨rfl, rfl⟩ := h
        obtain ⟨m1, m2, m3, m4, m5⟩ := validationErrors_complete (sanitizeBody body)
        exact ⟨rfl, rfl, m1, m2, m3, m4, m5⟩
  · intro body newId now store
    simp only [createSubmission]
    split
    · intro _
      rfl
    · split
      · intro hcontra
        cases hcontra
      · intro hcontra
        cases hcontra

/-- C6 witness: instantiating the 400 contract on the five-digit erCode
body shows the store untouched and the erCode message listed. -/
theorem claim6_ercode_validation_witness :
    ([] : List Submission) = [] ∧
    "ER Code format must be ER followed by 6 digits" ∈
      ["ER Code format must be ER followed by 6 digits"] :=
  ⟨(claim6_ercode_validation.2.2.1 erCode5Body "x" 0 []
      ["ER Code format must be ER followed by 6 digits"] [] (by decide)).1,
   (claim6_ercode_validation.2.2.1 erCode5Body "x" 0 []
      ["ER Code format must be ER followed by 6 digits"] [] (by decide)).2.2.2.2.1
     "ER Code format must be ER followed by 6 digits" (by decide)⟩

/-! ### Claim C10: sanitization precedes validation and persistence -/

/-- The name `O'Brien` (written with an explicit apostrophe code
point). -/
def apostropheName : String :=
  String.mk [Char.ofNat 79, Char.ofNat 39, Char.ofNat 66, Char.ofNat 114,
    Char.ofNat 105, Char.ofNat 101, Char.ofNat 110]

/-- The escape of `O'Brien`: `O&#x27;Brien`. -/
def apostropheNameEscaped : String :=
  String.mk [Char.ofNat 79, Char.ofNat 38, Char.ofNat 35, Char.ofNat 120,
    Char.ofNat 50, Char.ofNat 55, Char.ofNat 59, Char.ofNat 66,
    Char.ofNat 114, Char.ofNat 105, Char.ofNat 101, Char.ofNat 110]

/-- A 500-character description whose first character is an
ampersand. -/
def ampDescription : String :=
  String.mk (Char.ofNat 38 :: List.replicate 499 (Char.ofNat 97))

/-- The good body with the apostrophe name. -/
def apostropheBody : RawBody := { sampleGoodBody with name := apostropheName }

/-- The good body with the 500-character ampersand description. -/
def ampBody : RawBody := { sampleGoodBody with description := ampDescription }

set_option maxRecDepth 100000 in
/-- C10: every persisted field value is the trim-and-escape of the
submitted one, so stored values can differ from what the client sent;
concretely, the name `O'Brien` is escaped to `O&#x27;Brien` and then
rejected by the letters-and-spaces constraint, and a 500-character
description containing an ampersand (client-valid) grows to 504
characters under escaping and is rejected by the 500-character limit. -/
theorem claim10_sanitization :
    (∀ (body : RawBody) (newId : String) (now : Nat)
       (store : List Submission) (r : Submission)
       (store2 : List Submission),
      createSubmission body newId now store = (CreateResult.created r, store2) →
      r.name = sanitizeField body.name ∧
      r.productLine = sanitizeField body.productLine ∧
      r.erCode = sanitizeField body.erCode ∧
      r.description = sanitizeField body.description ∧
      r.modelNumber = sanitizeField body.modelNumber) ∧
    (sanitizeField apostropheName = apostropheNameEscaped ∧
     createSubmission apostropheBody "x" 0 [] =
       (CreateResult.validationFailed
         ["Name can only contain letters and spaces"], [])) ∧
    ((validateDescription ampDescription).isValid = true ∧
     ampDescription.length = 500 ∧
     (sanitizeField ampDescription).length = 504 ∧
     createSubmission ampBody "x" 0 [] =
       (CreateResult.validationFailed
         ["Description must be less than 500 characters"], [])) := by
  refine ⟨?_, ⟨by decide, by decide⟩, ⟨by decide, by decide, by decide, by decide⟩⟩
  · intro body newId now store r store2 h
    simp only [createSubmission] at h
    split at h
    · simp at h
    · split at h
      · simp only [Prod.mk.injEq, CreateResult.created.injEq] at h
        obtain ⟨rfl, rfl⟩ := h
        exact ⟨rfl, rfl, rfl, rfl, rfl⟩
      · simp at h

/-- C10 witness: on the valid sample body the persisted record's fields
are the sanitized submitted values. -/
theorem claim10_sanitization_witness :
    sampleStored.name = sanitizeField sampleGoodBody.name ∧
    sampleStored.productLine = sanitizeField sampleGoodBody.productLine ∧
    sampleStored.erCode = sanitizeField sampleGoodBody.erCode ∧
    sampleStored.description = sanitizeField sampleGoodBody.description ∧
    sampleStored.modelNumber = sanitizeField sampleGoodBody.modelNumber :=
  claim10_sanitization.1 sampleGoodBody "x" 7 [] sampleStored [sampleStored]
    (by decide)

/-! ### Claim C8: draft save/load round trip -/

/-- Hexadecimal digits emitted by the serializer are decoded to their
value by the parser. -/
theorem hexDigit_round_trip : ∀ n < 16, hexDigitVal (hexDigitChar n) = some n := by
  decide

/-- Parser step: a closing quote ends the string literal. -/
theorem parseBody_quote (acc rest : List Char) :
    parseJsonStringBody acc (Char.ofNat 34 :: rest) = some (acc.reverse, rest) := by
  unfold parseJsonStringBody
  simp

/-- Parser step: an ordinary character is consumed verbatim. -/
theorem parseBody_plain (c : Char) (acc rest : List Char)
    (h1 : c ≠ Char.ofNat 34) (h2 : c ≠ Char.ofNat 92)
    (h3 : ¬ c.toNat < 32) :
    parseJsonStringBody acc (c :: rest) = parseJsonStringBody (c :: acc) rest := by
  conv_lhs => unfold parseJsonStringBody
  simp [h1, h2, h3]

/-- Parser step: a single-character escape is decoded. -/
theorem parseBody_esc (e u : Char) (acc rest : List Char)
    (he : e ≠ Char.ofNat 117) (hu : unescapeJsonChar e = some u) :
    parseJsonStringBody acc (Char.ofNat 92 :: e :: rest) =
      parseJsonStringBody (u :: acc) rest := by
  conv_lhs => unfold parseJsonStringBody
  simp [he, hu]

/-- Parser step: a `\u00xx` escape is decoded to its code point. -/
theorem parseBody_escu (n : Nat) (hn : n < 32) (acc rest : List Char) :
    parseJsonStringBody acc
      (Char.ofNat 92 :: Char.ofNat 117 :: Char.ofNat 48 :: Char.ofNat 48 ::
       hexDigitChar (n / 16) :: hexDigitChar (n % 16) :: rest) =
      parseJsonStringBody (Char.ofNat n :: acc) rest := by
  have h0 : hexDigitVal (Char.ofNat 48) = some 0 := by decide
  have h3 : hexDigitVal (hexDigitChar (n / 16)) = some (n / 16) :=
    hexDigit_round_trip _ (by omega)
  have h4 : hexDigitVal (hexDigitChar (n % 16)) = some (n % 16) :=
    hexDigit_round_trip _ (by omega)
  conv_lhs => unfold parseJsonStringBody
  simp [h0, h3, h4]
  have harith : n / 16 * 16 + n % 16 = n := by omega
  rw [harith]

/-- The parser inverts the serializer's escaping: reading an escaped
body followed by a closing quote recovers exactly the original
characters. -/
theorem parse_escapeJsonList (cs : List Char) : ∀ (acc rest : List Char),
    parseJsonStringBody acc (escapeJsonList cs ++ Char.ofNat 34 :: rest) =
      some (acc.reverse ++ cs, rest) := by
  induction cs with
  | nil =>
    intro acc rest
    simp only [escapeJsonList, List.map_nil, List.flatten_nil, List.nil_append]
    rw [parseBody_quote]
    simp
  | cons c cs ih =>
    intro acc rest
    have hexp : escapeJsonList (c :: cs) = escapeJsonChar c ++ escapeJsonList cs := by
      simp [escapeJsonList]
    rw [hexp, List.append_assoc]
    by_cases h34 : c = Char.ofNat 34
    · subst h34
      rw [show escapeJsonChar (Char.ofNat 34) = [Char.ofNat 92, Char.ofNat 34]
        from by decide]
      simp only [List.cons_append, List.nil_append]
      rw [parseBody_esc (Char.ofNat 34) (Char.ofNat 34) _ _ (by decide) (by decide),
        ih]
      simp
    · by_cases h92 : c = Char.ofNat 92
      · subst h92
        rw [show escapeJsonChar (Char.ofNat 92) = [Char.ofNat 92, Char.ofNat 92]
          from by decide]
        simp only [List.cons_append, List.nil_append]
        rw [parseBody_esc (Char.ofNat 92) (Char.ofNat 92) _ _ (by decide) (by decide),
          ih]
        simp
      · by_cases h8 : c = Char.ofNat 8
        · subst h8
          rw [show escapeJsonChar (Char.ofNat 8) = [Char.ofNat 92, Char.ofNat 98]
            from by decide]
          simp only [List.cons_append, List.nil_append]
          rw [parseBody_esc (Char.ofNat 98) (Char.ofNat 8) _ _ (by decide) (by decide),
            ih]
          simp
        · by_cases h9 : c = Char.ofNat 9
          · subst h9
            rw [show escapeJsonChar (Char.ofNat 9) = [Char.ofNat 92, Char.ofNat 116]
              from by decide]
            simp only [List.cons_append, List.nil_append]
            rw [parseBody_esc (Char.ofNat 116) (Char.ofNat 9) _ _ (by decide)
              (by decide), ih]
            simp
          · by_cases h10 : c = Char.ofNat 10
            · subst h10
              rw [show escapeJsonChar (Char.ofNat 10) =
                  [Char.ofNat 92, Char.ofNat 110] from by decide]
              simp only [List.cons_append, List.nil_append]
              rw [parseBody_esc (Char.ofNat 110) (Char.ofNat 10) _ _ (by decide)
                (by decide), ih]
              simp
            · by_cases h12 : c = Char.ofNat 12
              · subst h12
                rw [show escapeJsonChar (Char.ofNat 12) =
                    [Char.ofNat 92, Char.ofNat 102] from by decide]
                simp only [List.cons_append, List.nil_append]
                rw [parseBody_esc (Char.ofNat 102) (Char.ofNat 12) _ _ (by decide)
                  (by decide), ih]
                simp
              · by_cases h13 : c = Char.ofNat 13
                · subst h13
                  rw [show escapeJsonChar (Char.ofNat 13) =
                      [Char.ofNat 92, Char.ofNat 114] from by decide]
                  simp only [List.cons_append, List.nil_append]
                  rw [parseBody_esc (Char.ofNat 114) (Char.ofNat 13) _ _ (by decide)
                    (by decide), ih]
                  simp
                · by_cases hlt : c.toNat < 32
                  · have he : escapeJsonChar c =
                        [Char.ofNat 92, Char.ofNat 117, Char.ofNat 48, Char.ofNat 48,
                         hexDigitChar (c.toNat / 16), hexDigitChar (c.toNat % 16)] := by
                      unfold escapeJsonChar
                      rw [if_neg h34, if_neg h92, if_neg h8, if_neg h9, if_neg h10,
                        if_neg h12, if_neg h13, if_pos hlt]
                    rw [he]
                    simp only [List.cons_append, List.nil_append]
                    rw [parseBody_escu c.toNat hlt, Char.ofNat_toNat, ih]
                    simp
                  · have he : escapeJsonChar c = [c] := by
                      unfold escapeJsonChar
                      rw [if_neg h34, if_neg h92, if_neg h8, if_neg h9, if_neg h10,
                        if_neg h12, if_neg h13, if_neg hlt]
                    rw [he]
                    simp only [List.cons_append, List.nil_append]
                    rw [parseBody_plain c _ _ h34 h92 hlt, ih]
                    simp


/-- Consuming one expected character succeeds exactly on that
character. -/
theorem expectChar_cons (p : Char) (rest : List Char) :
    expectChar p (p :: rest) = some rest := by
  show (if p = p then some rest else none) = some rest
  rw [if_pos rfl]

/-- Consuming a serialized string literal yields the original string. -/
theorem parseStringToken_quoteJson (s : String) (rest : List Char) :
    parseStringToken (quoteJson s ++ rest) = some (s.data, rest) := by
  show parseStringToken (Char.ofNat 34 ::
    ((escapeJsonList s.data ++ [Char.ofNat 34]) ++ rest)) = _
  rw [List.append_assoc, List.singleton_append]
  show (if Char.ofNat 34 = Char.ofNat 34 then
      parseJsonStringBody [] (escapeJsonList s.data ++ Char.ofNat 34 :: rest)
    else none) = _
  rw [if_pos rfl, parse_escapeJsonList]
  simp

/-- Consuming a serialized `"key":"value"` pair yields both strings. -/
theorem parsePair_encode (k v : String) (rest : List Char) :
    parsePair (quoteJson k ++ (Char.ofNat 58 :: (quoteJson v ++ rest))) =
      some (k.data, v.data, rest) := by
  unfold parsePair
  rw [parseStringToken_quoteJson]
  simp only [Option.bind_eq_bind, Option.some_bind]
  rw [expectChar_cons]
  simp only [Option.some_bind]
  rw [parseStringToken_quoteJson]
  rfl

/-- Parsing a serialized draft recovers the exact field map. -/
theorem parseDraft_serializeDraft (d : IFormData) :
    parseDraft (serializeDraft d) = some d := by
  simp only [parseDraft, serializeDraft, Option.bind_eq_bind]
  rw [expectChar_cons]
  simp only [Option.some_bind]
  rw [parsePair_encode]
  simp only [Option.some_bind]
  rw [expectChar_cons]
  simp only [Option.some_bind]
  rw [parsePair_encode]
  simp only [Option.some_bind]
  rw [expectChar_cons]
  simp only [Option.some_bind]
  rw [parsePair_encode]
  simp only [Option.some_bind]
  rw [expectChar_cons]
  simp only [Option.some_bind]
  rw [parsePair_encode]
  simp only [Option.some_bind]
  rw [expectChar_cons]
  simp only [Option.some_bind]
  rw [parsePair_encode]
  simp only [Option.some_bind]
  rw [expectChar_cons]
  simp only [Option.some_bind]
  rw [if_pos (by decide)]

/-- C8: saving the current field map as a draft (`JSON.stringify` under
the fixed storage key) and loading on start (read the key, `JSON.parse`)
reproduces the exact same field map, field by field, for every field
map. -/
theorem claim8_draft_round_trip (d current : IFormData) :
    loadDraftOnStart (handleSaveDraft d) current = d := by
  show (match parseDraft (serializeDraft d) with
    | some d2 => d2
    | none => current) = d
  rw [parseDraft_serializeDraft]
